import Mathlib

/-!
# gst-inference: the inference prediction tree

A shallow embedding of

* `gst-libs/gst/r2inference/gstinferenceprediction.c` (the prediction node, its
  constructor, copy, reset, release and serialisation),
* `gst-libs/gst/r2inference/gstinferencedebug.c` (the verbosity-gated vector print),
* the arg-max scan of `gst_mobilenetv2_postprocess` in `ext/r2inference/gstmobilenetv2.c`.

Modelling conventions.

* A prediction node is a value of the inductive type `GstInferencePrediction`; the `GNode`
  hanging off `self->predictions` is `none` (NULL) or `some cs`, where `cs` lists, in sibling
  order, the nodes stored in the children of the `GNode`.  Trees are therefore finite and
  acyclic by construction.
* Pointers handed to the public functions are `Option Nat`: `none` is NULL, `some p` is the
  address `p` of a node in the heap `Heap` (the list of nodes obtained from `g_slice_new`).
* The static functions work on a node that is known to be present and return its new state.
* `gfloat`/`gdouble` values are rationals: the code only copies and compares them, and the
  order of non-NaN floating point numbers is the order of the numbers they denote.
* `printf` conversions: `%*s` with the empty string is `spaces`, `%u`, `%llu` and `%i` of a
  natural number are its decimal digits.
-/

namespace GstInference

/-! ## Data model -/

/-- The `BoundingBox` struct: four `guint` fields. -/
structure BoundingBox where
  x : Nat
  y : Nat
  width : Nat
  height : Nat
deriving DecidableEq

/-- The `Classification` record whose fields `classification_reset` writes. -/
structure Classification where
  class_id : Int
  class_prob : Rat
  class_label : Option String
  num_classes : Int
  classes_probs : Option (List Rat)
deriving DecidableEq

/-- The `GstInferencePrediction` struct.  `refcount` is the reference count of the embedded
`GstMiniObject`, `predictions` the `GNode *` (see the conventions at the top of the file). -/
inductive GstInferencePrediction where
  | mk (refcount : Int) (id : Nat) (enabled : Bool) (bbox : BoundingBox)
      (classifications : List Classification)
      (predictions : Option (List GstInferencePrediction))

namespace GstInferencePrediction

/-- Field `base.refcount`. -/
def refcount : GstInferencePrediction → Int
  | mk rc _ _ _ _ _ => rc

/-- Field `id`. -/
def id : GstInferencePrediction → Nat
  | mk _ i _ _ _ _ => i

/-- Field `enabled`. -/
def enabled : GstInferencePrediction → Bool
  | mk _ _ e _ _ _ => e

/-- Field `bbox`. -/
def bbox : GstInferencePrediction → BoundingBox
  | mk _ _ _ b _ _ => b

/-- Field `classifications`. -/
def classifications : GstInferencePrediction → List Classification
  | mk _ _ _ _ c _ => c

/-- Field `predictions`. -/
def predictions : GstInferencePrediction → Option (List GstInferencePrediction)
  | mk _ _ _ _ _ p => p

end GstInferencePrediction

/-- The heap of prediction nodes: address `p` holds the `p`-th node obtained from
`g_slice_new`. -/
abbrev Heap := List GstInferencePrediction

/-! ## `gstinferenceprediction.c` -/

/-- The padding printed by `%*s` for the empty string: `n` blanks. -/
def spaces (n : Nat) : String := String.mk (List.replicate n ' ')

/-- `node_get_children`, the callback of `g_node_children_foreach`: the node stored in the
visited child is appended (`g_slist_append`) to the list collected so far. -/
def node_get_children (node : GstInferencePrediction)
    (children : List GstInferencePrediction) : List GstInferencePrediction :=
  children ++ [node]

/-- `prediction_get_children`: the empty list when `self->predictions` is NULL, otherwise
`g_node_children_foreach` visits the children of the `GNode` from the first to the last and
calls `node_get_children` on each. -/
def prediction_get_children (self : GstInferencePrediction) : List GstInferencePrediction :=
  match self.predictions with
  | none => []
  | some cs => cs.foldl (fun children node => node_get_children node children) []

/-- `classification_reset`: walks the list and clears the five fields of every record in
place; the list cells themselves are left alone. -/
def classification_reset : List Classification → List Classification
  | [] => []
  | _ :: iter =>
    { class_id := 0, class_prob := 0, class_label := none, num_classes := 0,
      classes_probs := none } :: classification_reset iter

/-- `bounding_box_reset`: all four fields are set to zero. -/
def bounding_box_reset (_bbox : BoundingBox) : BoundingBox :=
  { x := 0, y := 0, width := 0, height := 0 }

/-- `bounding_box_to_string`. -/
def bounding_box_to_string (bbox : BoundingBox) (level : Nat) : String :=
  let indent := level * 2
  "\x7b\n"
    ++ spaces indent ++ "  x : " ++ toString bbox.x ++ "\n"
    ++ spaces indent ++ "  y : " ++ toString bbox.y ++ "\n"
    ++ spaces indent ++ "  width : " ++ toString bbox.width ++ "\n"
    ++ spaces indent ++ "  height : " ++ toString bbox.height ++ "\n"
    ++ spaces indent ++ "\x7d"

/-- The text `g_strdup_printf` builds at the end of `prediction_to_string` from the node's
scalar fields, the rendered bounding box and the rendered children. -/
def prediction_format (level : Nat) (id : Nat) (enabled : Bool) (bbox children : String) :
    String :=
  let indent := level * 2
  "\x7b\n"
    ++ spaces indent ++ "  id : " ++ toString id ++ ",\n"
    ++ spaces indent ++ "  enabled : " ++ (if enabled then "True" else "False") ++ ",\n"
    ++ spaces indent ++ "  bbox : " ++ bbox ++ ",\n"
    ++ spaces indent ++ "  predictions : [\n"
    ++ spaces indent ++ "    " ++ children ++ "\n"
    ++ spaces indent ++ "  ]\n"
    ++ spaces indent ++ "\x7d"

mutual
/-- `prediction_to_string` on a present node (the NULL guard is in
`gst_inference_prediction_to_string`).  `subpreds` is `prediction_get_children self`: nothing
when `self->predictions` is NULL, else the children of the `GNode` in sibling order
(`prediction_get_children_some`, `prediction_to_string_subpreds`). -/
def prediction_to_string : GstInferencePrediction → Nat → String
  | .mk _ ident enabled bbox _ predictions, level =>
    let children :=
      match predictions with
      | none => ""
      | some subpreds => prediction_to_string_loop subpreds (level + 2) ""
    prediction_format level ident enabled (bounding_box_to_string bbox (level + 1)) children
/-- The loop of `prediction_to_string` over `subpreds`: every child is rendered at the given
level and appended to the `GString` with the format `"%s, "`. -/
def prediction_to_string_loop : List GstInferencePrediction → Nat → String → String
  | [], _, string => string
  | pred :: iter, level, string =>
    prediction_to_string_loop iter level (string ++ (prediction_to_string pred level ++ ", "))
end

/-- The list of children of the `GNode`, as release walks it (`[]` for NULL). -/
def gnode_children : Option (List GstInferencePrediction) → List GstInferencePrediction
  | none => []
  | some cs => cs

mutual
/-- `gst_mini_object_unref` of GStreamer on a node set up by `gst_mini_object_init` with
`prediction_free` as free function and no dispose function: the reference count is
decremented and, when it reaches zero, the free function runs.  This is what
`gst_inference_prediction_unref` does past its NULL guard.  The result is the node's new
state and the nodes whose count was decremented while the free function ran (in the order
of the decrements, each in its final state).  Live objects have a count of at least 1. -/
def gst_mini_object_unref (self : GstInferencePrediction) :
    GstInferencePrediction × List GstInferencePrediction :=
  match self with
  | .mk rc ident enabled bbox classifications predictions =>
    if rc - 1 = 0 then
      prediction_free (.mk (rc - 1) ident enabled bbox classifications predictions)
    else
      (.mk (rc - 1) ident enabled bbox classifications predictions, [])
termination_by (sizeOf self.predictions, 2)
decreasing_by
  all_goals simp [GstInferencePrediction.predictions, Prod.lex_def]
/-- `prediction_free`: every child is passed to `gst_inference_prediction_unref`, then the
`GNode` is destroyed and `self->predictions` set to NULL.  Returns the node's new state and
the released nodes (see `gst_mini_object_unref`). -/
def prediction_free (self : GstInferencePrediction) :
    GstInferencePrediction × List GstInferencePrediction :=
  match self with
  | .mk rc ident enabled bbox classifications predictions =>
    (.mk rc ident enabled bbox classifications none,
      prediction_free_loop (gnode_children predictions))
termination_by (sizeOf self.predictions, 1)
decreasing_by
  all_goals rename_i predictions
  all_goals cases predictions <;>
    simp [GstInferencePrediction.predictions, gnode_children, Prod.lex_def]
/-- The loop of `prediction_free` over the children. -/
def prediction_free_loop (children : List GstInferencePrediction) :
    List GstInferencePrediction :=
  match children with
  | [] => []
  | child :: iter =>
    ((gst_mini_object_unref child).1 :: (gst_mini_object_unref child).2)
      ++ prediction_free_loop iter
termination_by (sizeOf children, 0)
decreasing_by
  all_goals simp_wf
  all_goals simp [Prod.lex_def]
  all_goals cases child
  all_goals simp [GstInferencePrediction.predictions]
  all_goals omega
end

/-- `prediction_reset`: `id`, `enabled` and the bounding box are cleared, the classification
records are cleared by `classification_reset`, the children are released by
`prediction_free` and a fresh `GNode` without children is installed.  Returns the node's new
state and the nodes released by `prediction_free`. -/
def prediction_reset (self : GstInferencePrediction) :
    GstInferencePrediction × List GstInferencePrediction :=
  match self with
  | .mk rc _ _ bbox classifications predictions =>
    let freed :=
      prediction_free
        (.mk rc 0 false (bounding_box_reset bbox) (classification_reset classifications)
          predictions)
    (.mk freed.1.refcount freed.1.id freed.1.enabled freed.1.bbox freed.1.classifications
      (some []), freed.2)

/-- `gst_mini_object_init` of GStreamer, as far as the node's fields go: the reference
count starts at 1.  Nothing else of the node is written. -/
def gst_mini_object_init (self : GstInferencePrediction) : GstInferencePrediction :=
  match self with
  | .mk _ ident enabled bbox classifications predictions =>
    .mk 1 ident enabled bbox classifications predictions

/-- `gst_mini_object_ref` of GStreamer: the reference count is incremented. -/
def gst_mini_object_ref (self : GstInferencePrediction) : GstInferencePrediction :=
  match self with
  | .mk rc ident enabled bbox classifications predictions =>
    .mk (rc + 1) ident enabled bbox classifications predictions

/-- `gst_inference_prediction_new`.  `g_slice_new` hands out a block that is not cleared:
`mem` is what the block held before.  The constructor initialises the mini object, sets
`predictions` to NULL and calls `prediction_reset`.  Returns the address of the new node and
the new heap. -/
def gst_inference_prediction_new (heap : Heap) (mem : GstInferencePrediction) : Nat × Heap :=
  let self := gst_mini_object_init mem
  let self :=
    GstInferencePrediction.mk self.refcount self.id self.enabled self.bbox
      self.classifications none
  let self := (prediction_reset self).1
  (heap.length, heap ++ [self])

/-- `gst_inference_prediction_ref`: NULL for NULL, otherwise the count of the node is
incremented and the same pointer returned.  An address outside the heap is not a pointer
the program holds; the heap is left as it is there. -/
def gst_inference_prediction_ref (heap : Heap) (self : Option Nat) : Option Nat × Heap :=
  match self with
  | none => (none, heap)
  | some p =>
    match heap[p]? with
    | none => (some p, heap)
    | some obj => (some p, heap.set p (gst_mini_object_ref obj))

/-- `gst_inference_prediction_unref`: nothing for NULL, otherwise `gst_mini_object_unref` on
the node (the nodes released with it were its own children and leave the heap with its
`GNode`).  Nothing is done at an address outside the heap. -/
def gst_inference_prediction_unref (heap : Heap) (self : Option Nat) : Heap :=
  match self with
  | none => heap
  | some p =>
    match heap[p]? with
    | none => heap
    | some obj => heap.set p (gst_mini_object_unref obj).1

/-- `gst_inference_prediction_copy`: NULL for NULL; otherwise a node is created with
`gst_inference_prediction_new` and `id`, `enabled` and `bbox` are assigned from `self`.
`mem` is the prior content of the block the new node is allocated in.  Nothing is done at
an address outside the heap. -/
def gst_inference_prediction_copy (heap : Heap) (mem : GstInferencePrediction)
    (self : Option Nat) : Option Nat × Heap :=
  match self with
  | none => (none, heap)
  | some p =>
    match heap[p]? with
    | none => (none, heap)
    | some obj =>
      let created := gst_inference_prediction_new heap mem
      let other := created.1
      (some other,
        created.2.modify
          (fun o =>
            GstInferencePrediction.mk o.refcount obj.id obj.enabled obj.bbox o.classifications
              o.predictions)
          other)

/-- `gst_inference_prediction_to_string`: `prediction_to_string (self, 0)`, whose guard
returns NULL for a NULL node.  Nothing is rendered at an address outside the heap. -/
def gst_inference_prediction_to_string (heap : Heap) (self : Option Nat) : Option String :=
  match self with
  | none => none
  | some p =>
    match heap[p]? with
    | none => none
    | some obj => some (prediction_to_string obj 0)

/-! ## `gstmobilenetv2.c` and `gstinferencedebug.c` -/

/-- `GST_LEVEL_LOG` of `GstDebugLevel`. -/
def GST_LEVEL_LOG : Nat := 6

/-- The `GstVideoInference` element; none of its fields is read here. -/
structure GstVideoInference where
deriving DecidableEq

/-- A `GstDebugCategory`, as far as it is read: its threshold
(`gst_debug_category_get_threshold`), a `GstDebugLevel`. -/
structure GstDebugCategory where
  threshold : Nat
deriving DecidableEq

/-- The `GstClassificationMeta`, as far as it is read: `num_labels`, a `gint`. -/
structure GstClassificationMeta where
  num_labels : Int
deriving DecidableEq

/-- The `for` loop of `gst_mobilenetv2_postprocess` with `remaining` iterations to go
(`num_labels - i`): `current` is element `i` of the output vector; `index` and `max` are
replaced when `current > max`. -/
def gst_mobilenetv2_postprocess_loop (prediction : List Rat) :
    Nat → Nat → Nat → Rat → Nat × Rat
  | 0, _, index, max => (index, max)
  | remaining + 1, i, index, max =>
    let current := prediction.getD i 0
    if current > max then
      gst_mobilenetv2_postprocess_loop prediction remaining (i + 1) i current
    else
      gst_mobilenetv2_postprocess_loop prediction remaining (i + 1) index max

/-- The scan of `gst_mobilenetv2_postprocess`: `index = 0`, `max = -1`, then the loop over
`i = 0 .. num_labels - 1`.  Returns `(index, max)`. -/
def gst_mobilenetv2_postprocess_scan (class_meta : GstClassificationMeta)
    (prediction : List Rat) : Nat × Rat :=
  gst_mobilenetv2_postprocess_loop prediction class_meta.num_labels.toNat 0 0 (-1)

/-- `gst_mobilenetv2_postprocess`, as far as the scan goes: when the threshold of the
element's debug category is at least `GST_LEVEL_LOG` the scan runs and its `(index, max)` is
logged; `valid_prediction` and the return value are `TRUE`.  Returns the logged pair, if
any, `valid_prediction` and the return value. -/
def gst_mobilenetv2_postprocess (category : GstDebugCategory)
    (class_meta : GstClassificationMeta) (prediction : List Rat) :
    Option (Nat × Rat) × Bool × Bool :=
  let level := category.threshold
  if level ≥ GST_LEVEL_LOG then
    (some (gst_mobilenetv2_postprocess_scan class_meta prediction), true, true)
  else
    (none, true, true)

/-- The `for` loop of `gst_inference_print_embedding` with `remaining` iterations to go:
every iteration reaches one `GST_CAT_LEVEL_LOG` call, recorded as the pair `(i, current)`
appended to the lines emitted so far. -/
def gst_inference_print_embedding_loop (prediction : List Rat) :
    Nat → Nat → List (Nat × Rat) → List (Nat × Rat)
  | 0, _, lines => lines
  | remaining + 1, i, lines =>
    let current := prediction.getD i 0
    gst_inference_print_embedding_loop prediction remaining (i + 1) (lines ++ [(i, current)])

/-- `gst_inference_print_embedding`: returns at once when one of the four pointers is NULL;
otherwise the vector is printed when the threshold of the category is at least `gstlevel`.
Returns the lines emitted, in order. -/
def gst_inference_print_embedding (vi : Option GstVideoInference)
    (category : Option GstDebugCategory) (class_meta : Option GstClassificationMeta)
    (prediction : Option (List Rat)) (gstlevel : Nat) : List (Nat × Rat) :=
  match vi, category, class_meta, prediction with
  | some _, some category, some class_meta, some prediction =>
    let level := category.threshold
    if level ≥ gstlevel then
      gst_inference_print_embedding_loop prediction class_meta.num_labels.toNat 0 []
    else
      []
  | _, _, _, _ => []

/-! ## Vocabulary of the claims -/

/-- The text `s` with `k` blanks inserted after every newline character: the operation in
which the indentation law of the serialisation is stated. -/
def indent_after_newline (k : Nat) (s : String) : String :=
  String.mk (s.data.flatMap (fun c => if c = '\n' then '\n' :: List.replicate k ' ' else [c]))

mutual
/-- The part of a tree on which two trees of the same shape with the same id, enabled flag
and bbox at every node agree: the reference count and the classification list of every node
are erased. -/
def skeleton : GstInferencePrediction → GstInferencePrediction
  | .mk _ ident enabled bbox _ predictions =>
    .mk 0 ident enabled bbox []
      (match predictions with
        | none => none
        | some cs => some (skeleton_list cs))
/-- The skeletons of a list of trees. -/
def skeleton_list : List GstInferencePrediction → List GstInferencePrediction
  | [] => []
  | c :: cs => skeleton c :: skeleton_list cs
end

/-! ## Basic facts about the embedding -/

theorem spaces_zero : spaces 0 = "" := rfl

theorem node_get_children_foldl (cs acc : List GstInferencePrediction) :
    cs.foldl (fun children node => node_get_children node children) acc = acc ++ cs := by
  induction cs generalizing acc with
  | nil => simp
  | cons c cs ih =>
    rw [List.foldl_cons, ih]
    simp [node_get_children]

/-- A node whose `GNode` has the children `cs` has exactly `cs` as children, in order. -/
theorem prediction_get_children_some (ident : Nat) (i : Int) (en : Bool) (bb : BoundingBox)
    (cls : List Classification) (cs : List GstInferencePrediction) :
    prediction_get_children (.mk i ident en bb cls (some cs)) = cs := by
  simp [prediction_get_children, GstInferencePrediction.predictions, node_get_children_foldl]

theorem prediction_get_children_none (i : Int) (ident : Nat) (en : Bool) (bb : BoundingBox)
    (cls : List Classification) :
    prediction_get_children (.mk i ident en bb cls none) = [] := by
  simp [prediction_get_children, GstInferencePrediction.predictions]

/-- The loop of `prediction_to_string` appends, to the string built so far, the renders of
the children, each followed by a comma and a blank. -/
theorem prediction_to_string_loop_eq (cs : List GstInferencePrediction) (level : Nat)
    (string : String) :
    prediction_to_string_loop cs level string =
      string ++
        (cs.map (fun c => prediction_to_string c level ++ ", ")).foldr (fun s r => s ++ r) "" := by
  induction cs generalizing string with
  | nil => simp [prediction_to_string_loop]
  | cons c cs ih =>
    rw [prediction_to_string_loop, ih]
    simp [String.append_assoc]

/-- The state in which `prediction_free` leaves the node: only `predictions` changes, to
NULL. -/
theorem prediction_free_fst (rc : Int) (ident : Nat) (en : Bool) (bb : BoundingBox)
    (cls : List Classification) (ps : Option (List GstInferencePrediction)) :
    (prediction_free (.mk rc ident en bb cls ps)).1 = .mk rc ident en bb cls none := by
  rw [prediction_free]

/-- The state in which `prediction_reset` leaves the node. -/
theorem prediction_reset_fst (rc : Int) (ident : Nat) (en : Bool) (bb : BoundingBox)
    (cls : List Classification) (ps : Option (List GstInferencePrediction)) :
    (prediction_reset (.mk rc ident en bb cls ps)).1 =
      .mk rc 0 false ⟨0, 0, 0, 0⟩ (classification_reset cls) (some []) := by
  simp [prediction_reset, prediction_free_fst, bounding_box_reset,
    GstInferencePrediction.refcount, GstInferencePrediction.id,
    GstInferencePrediction.enabled, GstInferencePrediction.bbox,
    GstInferencePrediction.classifications]

theorem classification_reset_length (cls : List Classification) :
    (classification_reset cls).length = cls.length := by
  induction cls with
  | nil => rfl
  | cons c cs ih => simp [classification_reset, ih]

theorem classification_reset_mem (cls : List Classification) (c : Classification)
    (h : c ∈ classification_reset cls) : c = ⟨0, 0, none, 0, none⟩ := by
  induction cls with
  | nil => simp [classification_reset] at h
  | cons d ds ih =>
    simp only [classification_reset, List.mem_cons] at h
    rcases h with h | h
    · exact h
    · exact ih h

theorem modify_append_length {α : Type} (f : α → α) (l : List α) (a : α) :
    List.modify f l.length (l ++ [a]) = l ++ [f a] := by
  induction l with
  | nil => rfl
  | cons x xs ih => simp [List.modify_succ_cons, ih]

/-- The constructor appends one node to the heap; its classification list is the list found
in the block, with the records cleared. -/
theorem gst_inference_prediction_new_eq (heap : Heap) (mem : GstInferencePrediction) :
    gst_inference_prediction_new heap mem =
      (heap.length,
        heap ++ [.mk 1 0 false ⟨0, 0, 0, 0⟩ (classification_reset mem.classifications)
          (some [])]) := by
  cases mem with
  | mk rc ident en bb cls ps =>
    simp [gst_inference_prediction_new, gst_mini_object_init, prediction_reset_fst,
      GstInferencePrediction.refcount, GstInferencePrediction.id,
      GstInferencePrediction.enabled, GstInferencePrediction.bbox,
      GstInferencePrediction.classifications]

/-- The heap after a copy of a present node. -/
theorem gst_inference_prediction_copy_eq (heap : Heap) (mem : GstInferencePrediction)
    (p : Nat) (obj : GstInferencePrediction) (h : heap[p]? = some obj) :
    gst_inference_prediction_copy heap mem (some p) =
      (some heap.length,
        heap ++ [.mk 1 obj.id obj.enabled obj.bbox
          (classification_reset mem.classifications) (some [])]) := by
  simp [gst_inference_prediction_copy, h, gst_inference_prediction_new_eq,
    modify_append_length, GstInferencePrediction.refcount,
    GstInferencePrediction.classifications, GstInferencePrediction.predictions]

/-- The render of a node in terms of `prediction_get_children`, as in the source. -/
theorem prediction_to_string_subpreds (self : GstInferencePrediction) (level : Nat) :
    prediction_to_string self level =
      prediction_format level self.id self.enabled
        (bounding_box_to_string self.bbox (level + 1))
        (prediction_to_string_loop (prediction_get_children self) (level + 2) "") := by
  cases self with
  | mk rc ident en bb cls ps =>
    cases ps with
    | none =>
      simp [prediction_to_string, prediction_get_children_none, prediction_to_string_loop,
        GstInferencePrediction.id, GstInferencePrediction.enabled, GstInferencePrediction.bbox]
    | some cs =>
      simp [prediction_to_string, prediction_get_children_some,
        GstInferencePrediction.id, GstInferencePrediction.enabled, GstInferencePrediction.bbox]

theorem postprocess_loop_inv (v : List Rat) :
    ∀ (remaining i index : Nat) (max : Rat),
      -1 ≤ max →
      (∀ j, j < i → v.getD j 0 ≤ max) →
      ((max = -1 ∧ index = 0) ∨
        (-1 < max ∧ index < i ∧ v.getD index 0 = max ∧ ∀ j, j < index → v.getD j 0 < max)) →
      -1 ≤ (gst_mobilenetv2_postprocess_loop v remaining i index max).2
      ∧ (∀ j, j < i + remaining →
          v.getD j 0 ≤ (gst_mobilenetv2_postprocess_loop v remaining i index max).2)
      ∧ (((gst_mobilenetv2_postprocess_loop v remaining i index max).2 = -1
            ∧ (gst_mobilenetv2_postprocess_loop v remaining i index max).1 = 0)
          ∨ (-1 < (gst_mobilenetv2_postprocess_loop v remaining i index max).2
            ∧ (gst_mobilenetv2_postprocess_loop v remaining i index max).1 < i + remaining
            ∧ v.getD (gst_mobilenetv2_postprocess_loop v remaining i index max).1 0
                = (gst_mobilenetv2_postprocess_loop v remaining i index max).2
            ∧ ∀ j, j < (gst_mobilenetv2_postprocess_loop v remaining i index max).1 →
                v.getD j 0 < (gst_mobilenetv2_postprocess_loop v remaining i index max).2)) := by
  intro remaining
  induction remaining with
  | zero =>
    intro i index max h1 h2 h3
    simp only [gst_mobilenetv2_postprocess_loop, Nat.add_zero]
    exact ⟨h1, h2, h3⟩
  | succ n ih =>
    intro i index max h1 h2 h3
    simp only [gst_mobilenetv2_postprocess_loop]
    have e : i + (n + 1) = (i + 1) + n := by omega
    rw [e]
    by_cases hc : v.getD i 0 > max
    · rw [if_pos hc]
      apply ih
      · exact le_trans h1 (le_of_lt hc)
      · intro j hj
        rcases Nat.lt_succ_iff_lt_or_eq.mp hj with hj | hj
        · exact le_trans (h2 j hj) (le_of_lt hc)
        · rw [hj]
      · right
        refine ⟨lt_of_le_of_lt h1 hc, Nat.lt_succ_self i, rfl, ?_⟩
        intro j hj
        exact lt_of_le_of_lt (h2 j hj) hc
    · rw [if_neg hc]
      apply ih
      · exact h1
      · intro j hj
        rcases Nat.lt_succ_iff_lt_or_eq.mp hj with hj | hj
        · exact h2 j hj
        · rw [hj]; exact not_lt.mp hc
      · rcases h3 with h3 | ⟨a, b, c, d⟩
        · exact Or.inl h3
        · exact Or.inr ⟨a, Nat.lt_succ_of_lt b, c, d⟩

theorem print_embedding_loop_eq (v : List Rat) :
    ∀ (remaining i : Nat) (lines : List (Nat × Rat)),
      gst_inference_print_embedding_loop v remaining i lines
        = lines ++ (List.range remaining).map (fun k => (i + k, v.getD (i + k) 0)) := by
  intro remaining
  induction remaining with
  | zero => intro i lines; simp [gst_inference_print_embedding_loop]
  | succ n ih =>
    intro i lines
    rw [gst_inference_print_embedding_loop, ih, List.range_succ_eq_map]
    simp [Function.comp_def, Nat.add_assoc, Nat.add_comm 1]

theorem postprocess_loop_all_low (v : List Rat) :
    ∀ (remaining i : Nat),
      (∀ j, i ≤ j → j < i + remaining → v.getD j 0 ≤ -1) →
      gst_mobilenetv2_postprocess_loop v remaining i 0 (-1) = (0, -1) := by
  intro remaining
  induction remaining with
  | zero => intro i _; rfl
  | succ n ih =>
    intro i h
    simp only [gst_mobilenetv2_postprocess_loop]
    rw [if_neg (not_lt.mpr (h i (le_refl i) (by omega)))]
    exact ih (i + 1) (fun j hj hj2 => h j (Nat.le_of_succ_le hj) (by omega))

theorem prediction_get_children_eq (rc : Int) (ident : Nat) (en : Bool) (bb : BoundingBox)
    (cls : List Classification) (ps : Option (List GstInferencePrediction)) :
    prediction_get_children (.mk rc ident en bb cls ps) = gnode_children ps := by
  cases ps with
  | none => exact prediction_get_children_none rc ident en bb cls
  | some cs => exact prediction_get_children_some ident rc en bb cls cs

theorem prediction_free_loop_eq (cs : List GstInferencePrediction) :
    prediction_free_loop cs
      = cs.flatMap (fun child =>
          (gst_mini_object_unref child).1 :: (gst_mini_object_unref child).2) := by
  induction cs with
  | nil => rw [prediction_free_loop]; rfl
  | cons c cs ih => rw [prediction_free_loop, ih]; simp [List.flatMap_cons]

theorem prediction_free_snd (rc : Int) (ident : Nat) (en : Bool) (bb : BoundingBox)
    (cls : List Classification) (ps : Option (List GstInferencePrediction)) :
    (prediction_free (.mk rc ident en bb cls ps)).2 = prediction_free_loop (gnode_children ps) := by
  rw [prediction_free]

theorem prediction_reset_snd (rc : Int) (ident : Nat) (en : Bool) (bb : BoundingBox)
    (cls : List Classification) (ps : Option (List GstInferencePrediction)) :
    (prediction_reset (.mk rc ident en bb cls ps)).2 = prediction_free_loop (gnode_children ps) := by
  simp [prediction_reset, prediction_free_snd]

theorem intercalate_go_append (s : String) (l : List String) :
    ∀ acc : String,
      String.intercalate.go acc s l ++ s = acc ++ s ++ l.foldr (fun a r => a ++ s ++ r) "" := by
  induction l with
  | nil => intro acc; simp [String.intercalate.go]
  | cons a as ih =>
    intro acc
    rw [String.intercalate.go, ih]
    simp [String.append_assoc]

theorem foldr_sep_eq_intercalate (s : String) (l : List String) :
    l.foldr (fun a r => a ++ s ++ r) ""
      = if l.isEmpty then "" else String.intercalate s l ++ s := by
  cases l with
  | nil => rfl
  | cons a as =>
    show _ = String.intercalate.go a s as ++ s
    rw [intercalate_go_append]
    simp [String.append_assoc]

mutual
theorem prediction_to_string_skeleton :
    ∀ (t : GstInferencePrediction) (L : Nat),
      prediction_to_string t L = prediction_to_string (skeleton t) L
  | .mk _ _ _ _ _ none, L => by
    simp [prediction_to_string, skeleton]
  | .mk _ _ _ _ _ (some cs), L => by
    simp only [prediction_to_string, skeleton]
    rw [prediction_to_string_loop_skeleton cs (L + 2) ""]
theorem prediction_to_string_loop_skeleton :
    ∀ (cs : List GstInferencePrediction) (L : Nat) (string : String),
      prediction_to_string_loop cs L string
        = prediction_to_string_loop (skeleton_list cs) L string
  | [], _, _ => by simp [prediction_to_string_loop, skeleton_list]
  | c :: cs, L, string => by
    simp only [prediction_to_string_loop, skeleton_list]
    rw [prediction_to_string_skeleton c L, prediction_to_string_loop_skeleton cs L]
end

theorem indent_after_newline_append (k : Nat) (a b : String) :
    indent_after_newline k (a ++ b) = indent_after_newline k a ++ indent_after_newline k b := by
  apply String.ext
  simp [indent_after_newline, List.flatMap_append]

theorem indent_after_newline_clean (k : Nat) (s : String) (h : ∀ c ∈ s.data, c ≠ '\n') :
    indent_after_newline k s = s := by
  apply String.ext
  simp only [indent_after_newline]
  generalize s.data = l at h
  induction l with
  | nil => rfl
  | cons c cs ih =>
    rw [List.flatMap_cons, if_neg (h c (List.mem_cons_self c cs)),
      ih (fun d hd => h d (List.mem_cons_of_mem c hd))]
    rfl

theorem indent_after_newline_spaces (k n : Nat) :
    indent_after_newline k (spaces n) = spaces n := by
  apply indent_after_newline_clean
  intro c hc
  simp only [spaces, List.mem_replicate] at hc
  rw [hc.2]
  decide

theorem digitChar_ne_newline (d : Nat) : Nat.digitChar d ≠ '\n' := by
  by_cases h : d < 16
  · interval_cases d <;> decide
  · have h0 : Nat.digitChar d = '*' := by
      unfold Nat.digitChar
      repeat (rw [if_neg (by omega)])
    rw [h0]
    decide

theorem toDigitsCore_clean (b : Nat) :
    ∀ (fuel n : Nat) (acc : List Char), (∀ c ∈ acc, c ≠ '\n') →
      ∀ c ∈ Nat.toDigitsCore b fuel n acc, c ≠ '\n' := by
  intro fuel
  induction fuel with
  | zero => intro n acc h; simpa [Nat.toDigitsCore] using h
  | succ f ih =>
    intro n acc h
    simp only [Nat.toDigitsCore]
    have h2 : ∀ c ∈ Nat.digitChar (n % b) :: acc, c ≠ '\n' := by
      intro c hc
      rcases List.mem_cons.mp hc with hc | hc
      · rw [hc]; exact digitChar_ne_newline _
      · exact h c hc
    split
    · exact h2
    · exact ih _ _ h2

theorem indent_after_newline_nat (k n : Nat) :
    indent_after_newline k (toString n) = toString n := by
  apply indent_after_newline_clean
  intro c hc
  exact toDigitsCore_clean 10 _ _ [] (fun _ h => absurd h (List.not_mem_nil _)) c hc

theorem indent_after_newline_twice (j k : Nat) (s : String) :
    indent_after_newline k (indent_after_newline j s) = indent_after_newline (k + j) s := by
  apply String.ext
  simp only [indent_after_newline]
  generalize s.data = l
  induction l with
  | nil => rfl
  | cons c cs ih =>
    simp only [List.flatMap_cons, List.flatMap_append, ih]
    congr 1
    by_cases hc : c = '\n'
    · simp only [hc, if_true, List.flatMap_cons, List.replicate_add]
      have : ∀ n : Nat, (List.replicate n ' ').flatMap
          (fun c => if c = '\n' then '\n' :: List.replicate k ' ' else [c])
          = List.replicate n ' ' := by
        intro n
        induction n with
        | zero => rfl
        | succ m ihm =>
          rw [List.replicate_succ, List.flatMap_cons, ihm]
          rfl
      rw [this]
      simp
    · simp [hc]

theorem spaces_add (a b : Nat) : spaces (a + b) = spaces a ++ spaces b := by
  apply String.ext
  simp only [spaces, String.data_append, List.replicate_add]


theorem indent_after_newline_newline (k : Nat) (t : String) (h : ∀ c ∈ t.data, c ≠ '\n') :
    indent_after_newline k (t ++ "\n") = t ++ "\n" ++ spaces k := by
  have e : indent_after_newline k "\n" = "\n" ++ spaces k := by
    apply String.ext
    have d : "\n".data = ['\n'] := by decide
    simp only [indent_after_newline, String.data_append, d, spaces, List.flatMap_cons,
      List.flatMap_nil, if_true, List.append_nil, List.singleton_append]
  rw [indent_after_newline_append, indent_after_newline_clean k t h, e, String.append_assoc]

theorem bounding_box_to_string_level (bbox : BoundingBox) (L : Nat) :
    bounding_box_to_string bbox L
      = indent_after_newline (L * 2) (bounding_box_to_string bbox 0) := by
  simp only [bounding_box_to_string, indent_after_newline_append, indent_after_newline_nat,
    indent_after_newline_spaces]
  have e1 : indent_after_newline (L * 2) "\x7b\n" = "\x7b\n" ++ spaces (L * 2) :=
    indent_after_newline_newline (L * 2) "\x7b" (by decide)
  have e2 : indent_after_newline (L * 2) "\n" = "\n" ++ spaces (L * 2) :=
    indent_after_newline_newline (L * 2) "" (by decide)
  have e3 : indent_after_newline (L * 2) "  x : " = "  x : " :=
    indent_after_newline_clean _ _ (by decide)
  have e4 : indent_after_newline (L * 2) "  y : " = "  y : " :=
    indent_after_newline_clean _ _ (by decide)
  have e5 : indent_after_newline (L * 2) "  width : " = "  width : " :=
    indent_after_newline_clean _ _ (by decide)
  have e6 : indent_after_newline (L * 2) "  height : " = "  height : " :=
    indent_after_newline_clean _ _ (by decide)
  have e7 : indent_after_newline (L * 2) "\x7d" = "\x7d" :=
    indent_after_newline_clean _ _ (by decide)
  rw [e1, e2, e3, e4, e5, e6, e7]
  simp [spaces_zero, String.append_assoc]

theorem prediction_format_level (L ident : Nat) (en : Bool) (bbox children : String) :
    prediction_format L ident en (indent_after_newline (L * 2) bbox)
        (indent_after_newline (L * 2) children)
      = indent_after_newline (L * 2) (prediction_format 0 ident en bbox children) := by
  simp only [prediction_format, indent_after_newline_append, indent_after_newline_nat,
    indent_after_newline_spaces]
  have e1 : indent_after_newline (L * 2) "\x7b\n" = "\x7b\n" ++ spaces (L * 2) :=
    indent_after_newline_newline (L * 2) "\x7b" (by decide)
  have e2 : indent_after_newline (L * 2) "\n" = "\n" ++ spaces (L * 2) :=
    indent_after_newline_newline (L * 2) "" (by decide)
  have e3 : indent_after_newline (L * 2) ",\n" = ",\n" ++ spaces (L * 2) :=
    indent_after_newline_newline (L * 2) "," (by decide)
  have e4 : indent_after_newline (L * 2) "  predictions : [\n"
      = "  predictions : [\n" ++ spaces (L * 2) :=
    indent_after_newline_newline (L * 2) "  predictions : [" (by decide)
  have e5 : indent_after_newline (L * 2) "  ]\n" = "  ]\n" ++ spaces (L * 2) :=
    indent_after_newline_newline (L * 2) "  ]" (by decide)
  have e6 : indent_after_newline (L * 2) "  id : " = "  id : " :=
    indent_after_newline_clean _ _ (by decide)
  have e7 : indent_after_newline (L * 2) "  enabled : " = "  enabled : " :=
    indent_after_newline_clean _ _ (by decide)
  have e8 : indent_after_newline (L * 2) "  bbox : " = "  bbox : " :=
    indent_after_newline_clean _ _ (by decide)
  have e9 : indent_after_newline (L * 2) "    " = "    " :=
    indent_after_newline_clean _ _ (by decide)
  have e10 : indent_after_newline (L * 2) "\x7d" = "\x7d" :=
    indent_after_newline_clean _ _ (by decide)
  have e11 : indent_after_newline (L * 2) (if en then "True" else "False")
      = (if en then "True" else "False") := by
    cases en
    · exact indent_after_newline_clean _ _ (by decide)
    · exact indent_after_newline_clean _ _ (by decide)
  rw [e1, e2, e3, e4, e5, e6, e7, e8, e9, e10, e11]
  simp [spaces_zero, String.append_assoc]


theorem bounding_box_to_string_succ (bbox : BoundingBox) (L : Nat) :
    bounding_box_to_string bbox (L + 1)
      = indent_after_newline (L * 2) (bounding_box_to_string bbox (0 + 1)) := by
  rw [bounding_box_to_string_level bbox (L + 1), bounding_box_to_string_level bbox (0 + 1),
    indent_after_newline_twice]
  congr 1
  omega

mutual
theorem prediction_to_string_level :
    ∀ (t : GstInferencePrediction) (L : Nat),
      prediction_to_string t L = indent_after_newline (L * 2) (prediction_to_string t 0)
  | .mk _ ident en bb _ none, L => by
    simp only [prediction_to_string]
    rw [bounding_box_to_string_succ, ← prediction_format_level]
    congr 1
  | .mk _ ident en bb _ (some cs), L => by
    simp only [prediction_to_string]
    rw [bounding_box_to_string_succ, prediction_to_string_loop_eq,
      prediction_to_string_loop_eq, prediction_to_string_children_level cs L,
      ← prediction_format_level]
    simp
theorem prediction_to_string_children_level :
    ∀ (cs : List GstInferencePrediction) (L : Nat),
      (cs.map (fun c => prediction_to_string c (L + 2) ++ ", ")).foldr (fun s r => s ++ r) ""
        = indent_after_newline (L * 2)
            ((cs.map (fun c => prediction_to_string c (0 + 2) ++ ", ")).foldr
              (fun s r => s ++ r) "")
  | [], L => by
    exact (indent_after_newline_clean (L * 2) "" (by decide)).symm
  | c :: cs, L => by
    simp only [List.map_cons, List.foldr_cons]
    rw [prediction_to_string_children_level cs L, indent_after_newline_append,
      indent_after_newline_append, prediction_to_string_level c (L + 2),
      prediction_to_string_level c (0 + 2), indent_after_newline_twice,
      indent_after_newline_clean (L * 2) ", " (by decide)]
    congr 3
    omega
end

/-! ## The claims -/

/-- C1 (as stated) fails: the copy of a node that has one child renders with an empty
`predictions` list, the node itself renders its child. -/
theorem copy_round_trip_fails_with_child :
    gst_inference_prediction_to_string
        (gst_inference_prediction_copy
          [.mk 1 5 true ⟨0, 0, 10, 20⟩ [] (some [.mk 1 7 true ⟨1, 2, 3, 4⟩ [] (some [])])]
          (.mk 0 0 false ⟨0, 0, 0, 0⟩ [] none) (some 0)).2
        (gst_inference_prediction_copy
          [.mk 1 5 true ⟨0, 0, 10, 20⟩ [] (some [.mk 1 7 true ⟨1, 2, 3, 4⟩ [] (some [])])]
          (.mk 0 0 false ⟨0, 0, 0, 0⟩ [] none) (some 0)).1
      ≠ gst_inference_prediction_to_string
        [.mk 1 5 true ⟨0, 0, 10, 20⟩ [] (some [.mk 1 7 true ⟨1, 2, 3, 4⟩ [] (some [])])]
        (some 0) := by
  rw [gst_inference_prediction_copy_eq _ _ 0 _ rfl]
  decide

/-- C1 (amended): for every node `T` without children (any id, enabled flag, bbox,
classifications and reference count, whatever the block of the copy held before),
`gst_inference_prediction_to_string` of `gst_inference_prediction_copy (T)` is the string
`gst_inference_prediction_to_string (T)`, and both are present. -/
theorem copy_round_trip_childless (heap : Heap) (mem T : GstInferencePrediction) (p : Nat)
    (hp : heap[p]? = some T) (hT : prediction_get_children T = []) :
    gst_inference_prediction_to_string (gst_inference_prediction_copy heap mem (some p)).2
        (gst_inference_prediction_copy heap mem (some p)).1
      = gst_inference_prediction_to_string heap (some p)
    ∧ gst_inference_prediction_to_string heap (some p) = some (prediction_to_string T 0) := by
  rw [gst_inference_prediction_copy_eq heap mem p T hp]
  simp only [gst_inference_prediction_to_string, hp, List.getElem?_concat_length, and_true]
  rw [prediction_to_string_subpreds, prediction_to_string_subpreds T, hT,
    prediction_get_children_some]
  rfl

theorem copy_round_trip_childless_witness :
    ([GstInferencePrediction.mk 2 5 true ⟨0, 0, 10, 20⟩ [⟨3, 1, some "cat", 2, none⟩] none] :
        Heap)[0]? = some (.mk 2 5 true ⟨0, 0, 10, 20⟩ [⟨3, 1, some "cat", 2, none⟩] none)
    ∧ prediction_get_children
        (.mk 2 5 true ⟨0, 0, 10, 20⟩ [⟨3, 1, some "cat", 2, none⟩] none) = []
    ∧ gst_inference_prediction_to_string
        (gst_inference_prediction_copy
          [.mk 2 5 true ⟨0, 0, 10, 20⟩ [⟨3, 1, some "cat", 2, none⟩] none]
          (.mk 9 9 true ⟨9, 9, 9, 9⟩ [] none) (some 0)).2
        (gst_inference_prediction_copy
          [.mk 2 5 true ⟨0, 0, 10, 20⟩ [⟨3, 1, some "cat", 2, none⟩] none]
          (.mk 9 9 true ⟨9, 9, 9, 9⟩ [] none) (some 0)).1
      = gst_inference_prediction_to_string
        [.mk 2 5 true ⟨0, 0, 10, 20⟩ [⟨3, 1, some "cat", 2, none⟩] none] (some 0) :=
  ⟨rfl, rfl,
    (copy_round_trip_childless
      [.mk 2 5 true ⟨0, 0, 10, 20⟩ [⟨3, 1, some "cat", 2, none⟩] none]
      (.mk 9 9 true ⟨9, 9, 9, 9⟩ [] none)
      (.mk 2 5 true ⟨0, 0, 10, 20⟩ [⟨3, 1, some "cat", 2, none⟩] none) 0 rfl rfl).1⟩

/-- C2: for every node, whatever its prior id, enabled flag, bbox and children, after
`prediction_reset` the node has `id = 0`, `enabled = false`, `bbox = (0,0,0,0)` and no
children: its `GNode` is a fresh root without children. -/
theorem prediction_reset_clears_node (self : GstInferencePrediction) :
    (prediction_reset self).1.id = 0
    ∧ (prediction_reset self).1.enabled = false
    ∧ (prediction_reset self).1.bbox = ⟨0, 0, 0, 0⟩
    ∧ prediction_get_children (prediction_reset self).1 = []
    ∧ (prediction_reset self).1.predictions = some [] := by
  cases self with
  | mk rc ident en bb cls ps =>
    rw [prediction_reset_fst]
    simp [prediction_get_children_some, GstInferencePrediction.id,
      GstInferencePrediction.enabled, GstInferencePrediction.bbox,
      GstInferencePrediction.predictions]

/-- C3 (as stated) fails: a node that holds one classification record still holds one
record after `prediction_reset`; its classification list is not empty. -/
theorem prediction_reset_keeps_classification_cells :
    (prediction_reset
        (.mk 1 5 true ⟨0, 0, 10, 20⟩ [⟨3, 1, some "cat", 2, some [0, 1]⟩] (some []))).1.classifications
      ≠ [] := by
  rw [prediction_reset_fst]
  decide

/-- C3 (amended): for every node, after `prediction_reset` the classification list has as
many records as before the reset and every record in it is cleared (class id 0,
probability 0, no label, 0 classes, no probability vector); the list is empty exactly when
it was empty before the reset. -/
theorem prediction_reset_clears_classifications_in_place (self : GstInferencePrediction) :
    (prediction_reset self).1.classifications.length = self.classifications.length
    ∧ (∀ c ∈ (prediction_reset self).1.classifications,
        c = ({ class_id := 0, class_prob := 0, class_label := none, num_classes := 0,
               classes_probs := none } : Classification))
    ∧ ((prediction_reset self).1.classifications = [] ↔ self.classifications = []) := by
  cases self with
  | mk rc ident en bb cls ps =>
    rw [prediction_reset_fst]
    simp only [GstInferencePrediction.classifications]
    refine ⟨classification_reset_length cls, classification_reset_mem cls, ?_⟩
    rw [← List.length_eq_zero, ← List.length_eq_zero, classification_reset_length]

/-- C4 fails on the code: the constructor never writes `self->classifications`, so the node
it returns holds whatever list the block held before (with the records cleared by
`classification_reset`).  Here the block held a list of one record and the new node has a
classification list of one record. -/
theorem prediction_new_keeps_stale_classifications :
    (gst_inference_prediction_new []
        (.mk 0 0 false ⟨0, 0, 0, 0⟩ [⟨3, 1, some "cat", 2, some [0, 1]⟩] none)).2[0]?
      = some (.mk 1 0 false ⟨0, 0, 0, 0⟩ [⟨0, 0, none, 0, none⟩] (some []))
    ∧ ((gst_inference_prediction_new []
        (.mk 0 0 false ⟨0, 0, 0, 0⟩ [⟨3, 1, some "cat", 2, some [0, 1]⟩] none)).2[0]?).map
          GstInferencePrediction.classifications
      ≠ some [] := by
  rw [gst_inference_prediction_new_eq]
  exact ⟨rfl, by decide⟩

/-- C5: a freshly reset node, and a freshly created one, render as the empty state in the
documented format: the fields `id`, `enabled`, `bbox` (`x`, `y`, `width`, `height`) and
`predictions` in that order, with an empty `predictions` list. -/
theorem to_string_of_empty_node (self : GstInferencePrediction) (heap : Heap)
    (mem : GstInferencePrediction) :
    prediction_to_string (prediction_reset self).1 0
      = "\x7b\n  id : 0,\n  enabled : False,\n  bbox : \x7b\n    x : 0\n    y : 0\n    width : 0\n    height : 0\n  \x7d,\n  predictions : [\n    \n  ]\n\x7d"
    ∧ gst_inference_prediction_to_string (gst_inference_prediction_new heap mem).2
        (some (gst_inference_prediction_new heap mem).1)
      = some "\x7b\n  id : 0,\n  enabled : False,\n  bbox : \x7b\n    x : 0\n    y : 0\n    width : 0\n    height : 0\n  \x7d,\n  predictions : [\n    \n  ]\n\x7d" := by
  constructor
  · cases self with
    | mk rc ident en bb cls ps =>
      rw [prediction_reset_fst]
      rfl
  · rw [gst_inference_prediction_new_eq]
    simp only [gst_inference_prediction_to_string, List.getElem?_concat_length]
    rfl

/-- C6: for every node and every level `L`, the render of the node at level `L` is the
node's header up to `predictions : [`, then, for the children `c1 .. cn` returned by
`prediction_get_children` in this order, the render of each `ci` at level `L + 2` (each
followed by a comma and a blank), then the closing `]` and brace; and
`prediction_get_children` of a node whose `GNode` holds the children `cs` is `cs`, in the
order of the `GNode`. -/
theorem prediction_to_string_children_in_order (self : GstInferencePrediction) (L : Nat)
    (rc : Int) (ident : Nat) (en : Bool) (bb : BoundingBox) (cls : List Classification)
    (cs : List GstInferencePrediction) :
    prediction_to_string self L
      = "\x7b\n"
        ++ spaces (L * 2) ++ "  id : " ++ toString self.id ++ ",\n"
        ++ spaces (L * 2) ++ "  enabled : " ++ (if self.enabled then "True" else "False") ++ ",\n"
        ++ spaces (L * 2) ++ "  bbox : " ++ bounding_box_to_string self.bbox (L + 1) ++ ",\n"
        ++ spaces (L * 2) ++ "  predictions : [\n"
        ++ spaces (L * 2) ++ "    "
        ++ ((prediction_get_children self).map
              (fun ci => prediction_to_string ci (L + 2) ++ ", ")).foldr (fun s r => s ++ r) ""
        ++ "\n"
        ++ spaces (L * 2) ++ "  ]\n"
        ++ spaces (L * 2) ++ "\x7d"
    ∧ prediction_get_children (.mk rc ident en bb cls (some cs)) = cs := by
  refine ⟨?_, prediction_get_children_some ident rc en bb cls cs⟩
  rw [prediction_to_string_subpreds, prediction_to_string_loop_eq]
  simp [prediction_format]

/-- C7 (as stated) fails: on the one-element vector `[-2]` the scan ends with index 0 and
max -1, which is not an element of the vector, let alone its maximum. -/
theorem postprocess_scan_misses_max_below_minus_one :
    ¬ ((gst_mobilenetv2_postprocess_scan ⟨1⟩ [-2]).1 < [(-2 : Rat)].length
        ∧ [(-2 : Rat)][(gst_mobilenetv2_postprocess_scan ⟨1⟩ [-2]).1]?
            = some (gst_mobilenetv2_postprocess_scan ⟨1⟩ [-2]).2
        ∧ (∀ x ∈ [(-2 : Rat)], x ≤ (gst_mobilenetv2_postprocess_scan ⟨1⟩ [-2]).2)
        ∧ (∀ j x, j < (gst_mobilenetv2_postprocess_scan ⟨1⟩ [-2]).1 →
            [(-2 : Rat)][j]? = some x → x < (gst_mobilenetv2_postprocess_scan ⟨1⟩ [-2]).2)) := by
  have e : gst_mobilenetv2_postprocess_scan ⟨1⟩ [-2] = (0, -1) := by decide
  rw [e]
  intro h
  exact absurd h.2.1 (by decide)

/-- C7 (amended): for every vector of `num_labels` elements in which at least one element
is greater than -1 (so the vector is not empty), the scan of `gst_mobilenetv2_postprocess`
returns an index inside the vector together with the element at that index, this element
is the maximum of the vector, and every element at a lower index is strictly smaller: the
index is the first occurrence of the maximum. -/
theorem postprocess_scan_first_argmax (class_meta : GstClassificationMeta) (v : List Rat)
    (hlen : class_meta.num_labels = v.length) (hpos : ∃ x ∈ v, -1 < x) :
    (gst_mobilenetv2_postprocess_scan class_meta v).1 < v.length
    ∧ v[(gst_mobilenetv2_postprocess_scan class_meta v).1]?
        = some (gst_mobilenetv2_postprocess_scan class_meta v).2
    ∧ (∀ x ∈ v, x ≤ (gst_mobilenetv2_postprocess_scan class_meta v).2)
    ∧ (∀ j x, j < (gst_mobilenetv2_postprocess_scan class_meta v).1 →
        v[j]? = some x → x < (gst_mobilenetv2_postprocess_scan class_meta v).2) := by
  have hn : class_meta.num_labels.toNat = v.length := by rw [hlen]; rfl
  have inv := postprocess_loop_inv v v.length 0 0 (-1) (le_refl _)
    (fun j hj => absurd hj (Nat.not_lt_zero j)) (Or.inl ⟨rfl, rfl⟩)
  simp only [gst_mobilenetv2_postprocess_scan, hn]
  rw [Nat.zero_add] at inv
  obtain ⟨_, hmax, hcase⟩ := inv
  have hall : ∀ x ∈ v, x ≤ (gst_mobilenetv2_postprocess_loop v v.length 0 0 (-1)).2 := by
    intro x hx
    obtain ⟨j, hj, rfl⟩ := List.getElem_of_mem hx
    have := hmax j hj
    rwa [List.getD_eq_getElem v 0 hj] at this
  rcases hcase with ⟨hm, _⟩ | ⟨_, hidx, hval, hfirst⟩
  · obtain ⟨x, hx, hx1⟩ := hpos
    have := hall x hx
    rw [hm] at this
    exact absurd hx1 (not_lt.mpr this)
  · refine ⟨hidx, ?_, hall, ?_⟩
    · rw [List.getElem?_eq_getElem hidx, ← hval, List.getD_eq_getElem v 0 hidx]
    · intro j x hj hx
      have := hfirst j hj
      rw [List.getD_eq_getElem?_getD, hx] at this
      exact this

theorem postprocess_scan_first_argmax_witness :
    (⟨3⟩ : GstClassificationMeta).num_labels = ([0, 1, 1] : List Rat).length
    ∧ (∃ x ∈ ([0, 1, 1] : List Rat), -1 < x)
    ∧ gst_mobilenetv2_postprocess_scan ⟨3⟩ [0, 1, 1] = (1, 1)
    ∧ (gst_mobilenetv2_postprocess_scan ⟨3⟩ [0, 1, 1]).1 < ([0, 1, 1] : List Rat).length :=
  ⟨rfl, ⟨0, by decide, by decide⟩, by decide,
    (postprocess_scan_first_argmax ⟨3⟩ [0, 1, 1] rfl ⟨0, by decide, by decide⟩).1⟩

/-- C8: for every vector of `num_labels` elements and every requested level,
`gst_inference_print_embedding` (called with all four pointers present) emits no line when
the threshold of the category is below the requested level, and otherwise emits exactly
`num_labels` lines, line `i` carrying the index `i` and element `i` of the vector. -/
theorem print_embedding_gated (vi : GstVideoInference) (category : GstDebugCategory)
    (class_meta : GstClassificationMeta) (v : List Rat) (gstlevel : Nat)
    (hlen : class_meta.num_labels = v.length) :
    (category.threshold < gstlevel →
      gst_inference_print_embedding (some vi) (some category) (some class_meta) (some v)
        gstlevel = [])
    ∧ (gstlevel ≤ category.threshold →
      (gst_inference_print_embedding (some vi) (some category) (some class_meta) (some v)
        gstlevel).length = v.length
      ∧ ∀ (i : Nat) (x : Rat), v[i]? = some x →
          (gst_inference_print_embedding (some vi) (some category) (some class_meta) (some v)
            gstlevel)[i]? = some (i, x)) := by
  have hn : class_meta.num_labels.toNat = v.length := by rw [hlen]; rfl
  constructor
  · intro h
    simp [gst_inference_print_embedding, Nat.not_le.mpr h]
  · intro h
    simp only [gst_inference_print_embedding, ge_iff_le, h, if_true, hn,
      print_embedding_loop_eq, List.nil_append, List.length_map, List.length_range, true_and]
    intro i x hx
    have hi : i < v.length := (List.getElem?_eq_some_iff.mp hx).1
    rw [List.getElem?_map, List.getElem?_range hi]
    simp [List.getD_eq_getElem?_getD, hx]

theorem print_embedding_gated_witness :
    (⟨3⟩ : GstClassificationMeta).num_labels = ([5, 6, 7] : List Rat).length
    ∧ gst_inference_print_embedding (some {}) (some ⟨6⟩) (some ⟨3⟩) (some [5, 6, 7]) 6
        = [(0, 5), (1, 6), (2, 7)]
    ∧ (5 < 6 → gst_inference_print_embedding (some {}) (some ⟨5⟩) (some ⟨3⟩) (some [5, 6, 7]) 6
        = []) :=
  ⟨rfl, by decide, (print_embedding_gated {} ⟨5⟩ ⟨3⟩ [5, 6, 7] 6 rfl).1⟩

/-- C9: operations on an absent node return the absent result and change nothing:
`gst_inference_prediction_ref`, `gst_inference_prediction_copy` and
`gst_inference_prediction_to_string` of NULL are NULL, and after each of them, as after
`gst_inference_prediction_unref (NULL)`, the heap is the heap before the call; in
particular the copy of NULL allocates no node. -/
theorem absent_node_operations (heap : Heap) (mem : GstInferencePrediction) :
    gst_inference_prediction_ref heap none = (none, heap)
    ∧ gst_inference_prediction_copy heap mem none = (none, heap)
    ∧ (gst_inference_prediction_copy heap mem none).2.length = heap.length
    ∧ gst_inference_prediction_to_string heap none = none
    ∧ gst_inference_prediction_unref heap none = heap :=
  ⟨rfl, rfl, rfl, rfl, rfl⟩

/-- C10: for every node `n` of the heap, `gst_inference_prediction_copy (n)` returns the
address of a node that was not in the heap before; the new node has the id, the enabled
flag and the bbox of `n`, a reference count of 1 and no children, whatever children `n`
has; every node that was in the heap before, `n` included, is unchanged. -/
theorem copy_policy (heap : Heap) (mem n : GstInferencePrediction) (p : Nat)
    (hp : heap[p]? = some n) :
    (gst_inference_prediction_copy heap mem (some p)).1 = some heap.length
    ∧ heap[heap.length]? = none
    ∧ (∃ other, (gst_inference_prediction_copy heap mem (some p)).2[heap.length]? = some other
        ∧ other.id = n.id ∧ other.enabled = n.enabled ∧ other.bbox = n.bbox
        ∧ other.refcount = 1
        ∧ prediction_get_children other = [])
    ∧ (gst_inference_prediction_copy heap mem (some p)).2.length = heap.length + 1
    ∧ (∀ q, q < heap.length →
        (gst_inference_prediction_copy heap mem (some p)).2[q]? = heap[q]?)
    ∧ (gst_inference_prediction_copy heap mem (some p)).2[p]? = some n := by
  rw [gst_inference_prediction_copy_eq heap mem p n hp]
  have hlt : p < heap.length := (List.getElem?_eq_some_iff.mp hp).1
  refine ⟨rfl, by simp, ⟨_, List.getElem?_concat_length _ _, rfl, rfl, rfl, rfl,
    prediction_get_children_some _ _ _ _ _ _⟩, by simp, ?_, ?_⟩
  · intro q hq
    exact List.getElem?_append_left hq
  · show (heap ++ _)[p]? = some n
    rw [List.getElem?_append_left hlt, hp]

theorem copy_policy_witness :
    ([GstInferencePrediction.mk 1 5 true ⟨0, 0, 10, 20⟩ []
        (some [.mk 1 7 true ⟨1, 2, 3, 4⟩ [] (some [])])] : Heap)[0]?
      = some (.mk 1 5 true ⟨0, 0, 10, 20⟩ [] (some [.mk 1 7 true ⟨1, 2, 3, 4⟩ [] (some [])]))
    ∧ (gst_inference_prediction_copy
        [.mk 1 5 true ⟨0, 0, 10, 20⟩ [] (some [.mk 1 7 true ⟨1, 2, 3, 4⟩ [] (some [])])]
        (.mk 0 0 false ⟨0, 0, 0, 0⟩ [] none) (some 0)).1 = some 1 :=
  ⟨rfl,
    (copy_policy
      [.mk 1 5 true ⟨0, 0, 10, 20⟩ [] (some [.mk 1 7 true ⟨1, 2, 3, 4⟩ [] (some [])])]
      (.mk 0 0 false ⟨0, 0, 0, 0⟩ [] none)
      (.mk 1 5 true ⟨0, 0, 10, 20⟩ [] (some [.mk 1 7 true ⟨1, 2, 3, 4⟩ [] (some [])])) 0 rfl).1⟩

/-- C11: indentation is 2 blanks per nesting level.  For every tree and every level `L`,
the render of the node at level `L` is its render at level 0 with exactly `2 * L` blanks
inserted after every newline character; this holds at every depth of the tree, the bbox
being rendered one level and a child two levels deeper than the enclosing node. -/
theorem indentation_two_blanks_per_level (node : GstInferencePrediction) (L : Nat) :
    prediction_to_string node L
      = String.mk ((prediction_to_string node 0).data.flatMap
          (fun c => if c = '\n' then '\n' :: List.replicate (2 * L) ' ' else [c])) := by
  rw [prediction_to_string_level node L, Nat.mul_comm]
  rfl

set_option maxRecDepth 100000 in
/-- C12 (as stated) fails: for a node with one child the content of the `predictions` list
is not the render of the child alone (the renders joined with commas between consecutive
children only); the code writes a comma and a blank after the child. -/
theorem predictions_list_has_trailing_comma :
    prediction_to_string
        (.mk 1 5 true ⟨0, 0, 10, 20⟩ [] (some [.mk 1 7 true ⟨1, 2, 3, 4⟩ [] (some [])])) 0
      ≠ "\x7b\n"
        ++ "  id : 5,\n"
        ++ "  enabled : True,\n"
        ++ "  bbox : " ++ bounding_box_to_string ⟨0, 0, 10, 20⟩ 1 ++ ",\n"
        ++ "  predictions : [\n"
        ++ "    "
        ++ String.intercalate ", "
            [prediction_to_string (.mk 1 7 true ⟨1, 2, 3, 4⟩ [] (some [])) 2]
        ++ "\n"
        ++ "  ]\n"
        ++ "\x7d" := by
  decide

/-- C12 (amended): for every node with children `c1 .. cn` and every level `L`, the content
of the `predictions` list of the render is empty when `n = 0`, and otherwise the renders of
`c1 .. cn` at level `L + 2` joined with a comma and a blank between consecutive children,
followed by one more comma and blank after the last child. -/
theorem predictions_list_comma_after_every_child (self : GstInferencePrediction) (L : Nat) :
    prediction_to_string self L
      = "\x7b\n"
        ++ spaces (L * 2) ++ "  id : " ++ toString self.id ++ ",\n"
        ++ spaces (L * 2) ++ "  enabled : " ++ (if self.enabled then "True" else "False") ++ ",\n"
        ++ spaces (L * 2) ++ "  bbox : " ++ bounding_box_to_string self.bbox (L + 1) ++ ",\n"
        ++ spaces (L * 2) ++ "  predictions : [\n"
        ++ spaces (L * 2) ++ "    "
        ++ (if (prediction_get_children self).isEmpty then ""
            else String.intercalate ", "
                ((prediction_get_children self).map (fun ci => prediction_to_string ci (L + 2)))
              ++ ", ")
        ++ "\n"
        ++ spaces (L * 2) ++ "  ]\n"
        ++ spaces (L * 2) ++ "\x7d" := by
  have h := foldr_sep_eq_intercalate ", "
    ((prediction_get_children self).map (fun ci => prediction_to_string ci (L + 2)))
  rw [List.foldr_map] at h
  have e : ((prediction_get_children self).map
      (fun ci => prediction_to_string ci (L + 2))).isEmpty
      = (prediction_get_children self).isEmpty := by
    cases prediction_get_children self <;> rfl
  rw [e] at h
  rw [← h, prediction_to_string_subpreds, prediction_to_string_loop_eq, List.foldr_map]
  simp [prediction_format, String.append_assoc]

/-- C13: release of children.  `prediction_free` leaves the node with all its own fields,
its reference count included, and no child list; the nodes it touches are, for the direct
children in child order, the child after one `gst_inference_prediction_unref` followed by
the nodes released by that call, so the count of every direct child (read at the head of
its segment) is one less than before; `prediction_reset` releases the same nodes; and the
unref of a child decrements its count once and, exactly when the count reaches zero, runs
`prediction_free` on the child, which releases the child's own children the same way. -/
theorem prediction_free_releases_children (self child : GstInferencePrediction) :
    (prediction_free self).1
        = .mk self.refcount self.id self.enabled self.bbox self.classifications none
    ∧ prediction_get_children (prediction_free self).1 = []
    ∧ (prediction_free self).2
        = (prediction_get_children self).flatMap (fun c =>
            (gst_mini_object_unref c).1 :: (gst_mini_object_unref c).2)
    ∧ (prediction_get_children self).map (fun c => (gst_mini_object_unref c).1.refcount)
        = (prediction_get_children self).map (fun c => c.refcount - 1)
    ∧ (prediction_reset self).2 = (prediction_free self).2
    ∧ gst_mini_object_unref child
        = (if child.refcount - 1 = 0 then
            prediction_free
              (.mk (child.refcount - 1) child.id child.enabled child.bbox
                child.classifications child.predictions)
          else
            (.mk (child.refcount - 1) child.id child.enabled child.bbox
              child.classifications child.predictions, [])) := by
  have hrc : ∀ c : GstInferencePrediction,
      (gst_mini_object_unref c).1.refcount = c.refcount - 1 := by
    intro c
    cases c with
    | mk crc cident cen cbb ccls cps =>
      rw [gst_mini_object_unref]
      split
      · rw [prediction_free_fst]; rfl
      · rfl
  cases self with
  | mk rc ident en bb cls ps =>
    cases child with
    | mk crc cident cen cbb ccls cps =>
      refine ⟨prediction_free_fst rc ident en bb cls ps, ?_, ?_, ?_, ?_, ?_⟩
      · rw [prediction_free_fst, prediction_get_children_none]
      · rw [prediction_free_snd, prediction_get_children_eq, prediction_free_loop_eq]
      · exact List.map_congr_left (fun c _ => hrc c)
      · rw [prediction_reset_snd, prediction_free_snd]
      · rw [gst_mini_object_unref]
        rfl

/-- C14: for every vector of `num_labels` elements, when at least one element is greater
than -1 the scan of `gst_mobilenetv2_postprocess` ends with `max` equal to the maximum
element and `index` equal to the least index at which the maximum occurs; when every
element is at most -1 (the empty vector included) it ends with `index = 0` and
`max = -1`. -/
theorem postprocess_scan_under_lower_bound (class_meta : GstClassificationMeta) (v : List Rat)
    (hlen : class_meta.num_labels = v.length) :
    ((∃ x ∈ v, -1 < x) →
      (gst_mobilenetv2_postprocess_scan class_meta v).1 < v.length
      ∧ v[(gst_mobilenetv2_postprocess_scan class_meta v).1]?
          = some (gst_mobilenetv2_postprocess_scan class_meta v).2
      ∧ (∀ x ∈ v, x ≤ (gst_mobilenetv2_postprocess_scan class_meta v).2)
      ∧ (∀ j x, j < (gst_mobilenetv2_postprocess_scan class_meta v).1 →
          v[j]? = some x → x < (gst_mobilenetv2_postprocess_scan class_meta v).2))
    ∧ ((∀ x ∈ v, x ≤ -1) → gst_mobilenetv2_postprocess_scan class_meta v = (0, -1)) := by
  have hn : class_meta.num_labels.toNat = v.length := by rw [hlen]; rfl
  constructor
  · intro hpos
    have inv := postprocess_loop_inv v v.length 0 0 (-1) (le_refl _)
      (fun j hj => absurd hj (Nat.not_lt_zero j)) (Or.inl ⟨rfl, rfl⟩)
    simp only [gst_mobilenetv2_postprocess_scan, hn]
    rw [Nat.zero_add] at inv
    obtain ⟨_, hmax, hcase⟩ := inv
    have hall : ∀ x ∈ v, x ≤ (gst_mobilenetv2_postprocess_loop v v.length 0 0 (-1)).2 := by
      intro x hx
      obtain ⟨j, hj, rfl⟩ := List.getElem_of_mem hx
      have := hmax j hj
      rwa [List.getD_eq_getElem v 0 hj] at this
    rcases hcase with ⟨hm, _⟩ | ⟨_, hidx, hval, hfirst⟩
    · obtain ⟨x, hx, hx1⟩ := hpos
      have := hall x hx
      rw [hm] at this
      exact absurd hx1 (not_lt.mpr this)
    · refine ⟨hidx, ?_, hall, ?_⟩
      · rw [List.getElem?_eq_getElem hidx, ← hval, List.getD_eq_getElem v 0 hidx]
      · intro j x hj hx
        have := hfirst j hj
        rw [List.getD_eq_getElem?_getD, hx] at this
        exact this
  · intro hlow
    simp only [gst_mobilenetv2_postprocess_scan, hn]
    apply postprocess_loop_all_low
    intro j _ hj
    rw [Nat.zero_add] at hj
    rw [List.getD_eq_getElem v 0 hj]
    exact hlow _ (List.getElem_mem hj)

theorem postprocess_scan_under_lower_bound_witness :
    (⟨2⟩ : GstClassificationMeta).num_labels = ([-3, -2] : List Rat).length
    ∧ (∀ x ∈ ([-3, -2] : List Rat), x ≤ -1)
    ∧ gst_mobilenetv2_postprocess_scan ⟨2⟩ [-3, -2] = (0, -1) :=
  ⟨rfl, by decide,
    (postprocess_scan_under_lower_bound ⟨2⟩ [-3, -2] rfl).2 (by decide)⟩

/-- C15: the serialisation does not depend on classifications.  Two trees of the same shape
with the same id, enabled flag and bbox at every node (equal skeletons), whatever their
classification lists and reference counts, have the same
`gst_inference_prediction_to_string`, which is present, and the same render at every
level. -/
theorem to_string_ignores_classifications (heap1 heap2 : Heap) (p1 p2 : Nat)
    (t1 t2 : GstInferencePrediction) (h1 : heap1[p1]? = some t1) (h2 : heap2[p2]? = some t2)
    (hsame : skeleton t1 = skeleton t2) :
    gst_inference_prediction_to_string heap1 (some p1)
      = gst_inference_prediction_to_string heap2 (some p2)
    ∧ gst_inference_prediction_to_string heap1 (some p1) = some (prediction_to_string t1 0)
    ∧ ∀ L, prediction_to_string t1 L = prediction_to_string t2 L := by
  have h : ∀ L, prediction_to_string t1 L = prediction_to_string t2 L := by
    intro L
    rw [prediction_to_string_skeleton t1, prediction_to_string_skeleton t2, hsame]
  simp only [gst_inference_prediction_to_string, h1, h2, h 0]
  exact ⟨trivial, trivial, h⟩

theorem to_string_ignores_classifications_witness :
    ([GstInferencePrediction.mk 1 5 true ⟨0, 0, 10, 20⟩ [⟨3, 1, some "cat", 2, some [0, 1]⟩]
        (some [.mk 1 7 false ⟨1, 2, 3, 4⟩ [] (some [])])] : Heap)[0]?
      = some (.mk 1 5 true ⟨0, 0, 10, 20⟩ [⟨3, 1, some "cat", 2, some [0, 1]⟩]
          (some [.mk 1 7 false ⟨1, 2, 3, 4⟩ [] (some [])]))
    ∧ skeleton (.mk 1 5 true ⟨0, 0, 10, 20⟩ [⟨3, 1, some "cat", 2, some [0, 1]⟩]
          (some [.mk 1 7 false ⟨1, 2, 3, 4⟩ [] (some [])]))
      = skeleton (.mk 1 5 true ⟨0, 0, 10, 20⟩ []
          (some [.mk 1 7 false ⟨1, 2, 3, 4⟩ [⟨8, 0, none, 1, none⟩] (some [])]))
    ∧ gst_inference_prediction_to_string
        [.mk 1 5 true ⟨0, 0, 10, 20⟩ [⟨3, 1, some "cat", 2, some [0, 1]⟩]
          (some [.mk 1 7 false ⟨1, 2, 3, 4⟩ [] (some [])])] (some 0)
      = gst_inference_prediction_to_string
        [.mk 1 5 true ⟨0, 0, 10, 20⟩ []
          (some [.mk 1 7 false ⟨1, 2, 3, 4⟩ [⟨8, 0, none, 1, none⟩] (some [])])] (some 0) :=
  ⟨rfl, rfl,
    (to_string_ignores_classifications
      [.mk 1 5 true ⟨0, 0, 10, 20⟩ [⟨3, 1, some "cat", 2, some [0, 1]⟩]
        (some [.mk 1 7 false ⟨1, 2, 3, 4⟩ [] (some [])])]
      [.mk 1 5 true ⟨0, 0, 10, 20⟩ []
        (some [.mk 1 7 false ⟨1, 2, 3, 4⟩ [⟨8, 0, none, 1, none⟩] (some [])])]
      0 0 _ _ rfl rfl rfl).1⟩

/-- C16: `classification_reset` keeps the list's length and clears every record in place:
for every classification list of length `n`, the list after the reset has `n` records and
the record at every position has `class_id = 0`, `class_prob = 0`, no `class_label`,
`num_classes = 0` and no `classes_probs`. -/
theorem classification_reset_in_place (cls : List Classification) :
    (classification_reset cls).length = cls.length
    ∧ classification_reset cls
        = List.replicate cls.length
            ({ class_id := 0, class_prob := 0, class_label := none, num_classes := 0,
               classes_probs := none } : Classification)
    ∧ ∀ i, i < cls.length →
        (classification_reset cls)[i]?
          = some ({ class_id := 0, class_prob := 0, class_label := none, num_classes := 0,
                    classes_probs := none } : Classification) := by
  have hrep : classification_reset cls
        = List.replicate cls.length
            ({ class_id := 0, class_prob := 0, class_label := none, num_classes := 0,
               classes_probs := none } : Classification) := by
    induction cls with
    | nil => rfl
    | cons c cs ih => simp [classification_reset, ih, List.replicate_succ]
  refine ⟨classification_reset_length cls, hrep, ?_⟩
  intro i hi
  rw [hrep, List.getElem?_replicate, if_pos hi]

end GstInference
